import Mathlib

/-!
Verification of the ny-scratch single-page client (src/frontend/src/App.js and
the two variants in src/unnamed/part_000 and src/unnamed/part_001) against its
natural-language specification.

The loader logic is embedded shallowly:
JavaScript runtime values that can appear as parsed JSON or as results of
property accesses are modelled by `JsValue`; numbers are modelled as exact
rationals (the source manipulates small integers and ratios, where IEEE
doubles and rationals agree on every computation the claims exercise).
The body of the async function `fetchData` is modelled as a function from the
settled outcomes of the issued fetches to the list of state-setter events it
performs, mirroring the control flow of the try/catch/finally statement; the
component state is obtained by folding the events over the initial state, and
the render function maps a state to the view variant actually returned.
The timing behaviour of the ECMAScript `Promise.all` combinator, which the
source awaits on lines 16-20 of App.js, is modelled separately by
`promiseAll` over promises tagged with their settle times.
-/

namespace NYScratch

/-- JavaScript runtime values reachable in this program: results of
`JSON.parse` plus `undefined`, which property accesses can produce.
Numbers are modelled as exact rationals. -/
inductive JsValue : Type
  | undef : JsValue
  | null : JsValue
  | bool : Bool → JsValue
  | num : ℚ → JsValue
  | str : String → JsValue
  | arr : List JsValue → JsValue
  | obj : List (String × JsValue) → JsValue

/-- JavaScript exception values thrown in this program: `new Error(msg)`
thrown by the source on a non-ok response, the TypeError raised by a property
access on null or undefined, and the rejection of `res.json()` on a body that
is not valid JSON (a SyntaxError in the runtime). -/
inductive JsError : Type
  | jsError : String → JsError
  | typeError : String → JsError
  | parseError : String → JsError

/-- Field lookup on a JavaScript object: the first binding of the key wins,
a missing key reads as undefined. -/
def lookupField (fs : List (String × JsValue)) (k : String) : JsValue :=
  match fs.find? (fun p => p.1 == k) with
  | some p => p.2
  | none => JsValue.undef

/-- Property access `v.k`, as used by the source for `historyData.length` and
`.timestamp`: it throws a TypeError on null and undefined, reads `length` on
arrays and strings, reads fields on objects, and yields undefined elsewhere. -/
def getProp (v : JsValue) (k : String) : Except JsError JsValue :=
  match v with
  | .undef => Except.error (JsError.typeError ("Cannot read properties of undefined (reading " ++ k ++ ")"))
  | .null => Except.error (JsError.typeError ("Cannot read properties of null (reading " ++ k ++ ")"))
  | .bool _ => Except.ok JsValue.undef
  | .num _ => Except.ok JsValue.undef
  | .str s => if k == "length" then Except.ok (JsValue.num s.length) else Except.ok JsValue.undef
  | .arr xs => if k == "length" then Except.ok (JsValue.num xs.length) else Except.ok JsValue.undef
  | .obj fs => Except.ok (lookupField fs k)

/-- The ToNumber coercion restricted to the values that reach the comparison
`historyData.length > 0`: numbers coerce to themselves, null to 0, booleans to
0/1, and undefined to NaN (returned as `none`, which makes every comparison
false). String-to-number coercion is not modelled and strings are treated as
NaN: in this program it could only matter when a history body is a JSON
object carrying a string `length` field, a trace no claim depends on. -/
def toNumber? (v : JsValue) : Option ℚ :=
  match v with
  | .undef => none
  | .null => some 0
  | .bool b => some (if b then 1 else 0)
  | .num q => some q
  | .str _ => none
  | .arr _ => none
  | .obj _ => none

/-- Computed member access `v[i]` with a numeric index, as used by the source
for `historyData[historyData.length - 1]`: it throws a TypeError on null and
undefined, reads the element of an array at an integral in-range index and
undefined outside, reads one-character strings out of a string, looks the
stringified integer up on an object, and yields undefined elsewhere. -/
def getIndex (v : JsValue) (i : ℚ) : Except JsError JsValue :=
  match v with
  | .undef => Except.error (JsError.typeError "Cannot read properties of undefined")
  | .null => Except.error (JsError.typeError "Cannot read properties of null")
  | .bool _ => Except.ok JsValue.undef
  | .num _ => Except.ok JsValue.undef
  | .str s =>
      if i.den == 1 && 0 ≤ i.num && i.num < s.length then
        Except.ok (JsValue.str (String.mk [s.toList.getD i.num.toNat ' ']))
      else Except.ok JsValue.undef
  | .arr xs =>
      if i.den == 1 && 0 ≤ i.num && i.num < xs.length then
        Except.ok (xs.getD i.num.toNat JsValue.undef)
      else Except.ok JsValue.undef
  | .obj fs => if i.den == 1 then Except.ok (lookupField fs (toString i.num)) else Except.ok JsValue.undef

/-- Multiplication of rationals, computed on numerators and denominators so
that concrete traces evaluate inside the kernel; `mulQ_eq` certifies that it
is exactly multiplication on ℚ. -/
def mulQ (a b : ℚ) : ℚ := mkRat (a.num * b.num) (a.den * b.den)

/-- Subtraction of rationals, computed on numerators and denominators so that
concrete traces evaluate inside the kernel; `subQ_eq` certifies that it is
exactly subtraction on ℚ. -/
def subQ (a b : ℚ) : ℚ := mkRat (a.num * b.den - b.num * a.den) (a.den * b.den)

/-- A constructed `Date` object. Date parsing is not modelled: the object is
identified by the argument `new Date` received, which is all the claims about
the derived last-updated value compare. -/
structure JsDate : Type where
  arg : JsValue

/-- The expression `new Date(v)` from line 36 of App.js. -/
def newDate (v : JsValue) : JsDate := JsDate.mk v

/-- The settled outcome of a `fetch` response object: its `ok` flag and the
outcome of awaiting `res.json()` on it (an error when the body is not valid
JSON). -/
structure Response : Type where
  ok : Bool
  body : Except JsError JsValue

/-- A settled fetch: either a network fault (the fetch promise rejected) or a
response object. -/
def FetchOutcome : Type := Except JsError Response

/-- true exactly when this settled fetch would make the loader fail: the
promise rejected, or the response has a non-success status. -/
def fetchFailed (r : FetchOutcome) : Bool :=
  match r with
  | .error _ => true
  | .ok res => !res.ok

/-- The component state of the main App (src/frontend/src/App.js, lines 5-9):
the four useState hooks bestAny, bestGrand, lastUpdated, loading, error. -/
structure AppState : Type where
  bestAny : JsValue
  bestGrand : JsValue
  lastUpdated : Option JsDate
  loading : Bool
  error : Option String

/-- The initial state of a fresh activation: bestAny and bestGrand start as
empty arrays, lastUpdated as null, loading as true and error as null
(App.js lines 5-9). -/
def initialState : AppState :=
  AppState.mk (JsValue.arr []) (JsValue.arr []) none true none

/-- One state-setter call (or console.error log) performed by `fetchData`
while it runs; the activation is described by the list of events it emits,
in order. -/
inductive Event : Type
  | setBestAny : JsValue → Event
  | setBestGrand : JsValue → Event
  | setLastUpdated : JsDate → Event
  | setError : String → Event
  | setLoading : Bool → Event
  | logError : JsError → Event

/-- The effect of one setter call on the component state; `logError` models
`console.error` and leaves the state unchanged. -/
def applyEvent (s : AppState) (e : Event) : AppState :=
  match e with
  | .setBestAny v => AppState.mk v s.bestGrand s.lastUpdated s.loading s.error
  | .setBestGrand v => AppState.mk s.bestAny v s.lastUpdated s.loading s.error
  | .setLastUpdated d => AppState.mk s.bestAny s.bestGrand (some d) s.loading s.error
  | .setError m => AppState.mk s.bestAny s.bestGrand s.lastUpdated s.loading (some m)
  | .setLoading b => AppState.mk s.bestAny s.bestGrand s.lastUpdated b s.error
  | .logError _ => s

/-- Folding a trace of setter events over a state. -/
def runEvents (s : AppState) (evs : List Event) : AppState :=
  evs.foldl applyEvent s

/-- The generic user-facing message set by the catch block
(App.js line 40). -/
def userErrorMessage : String := "Unable to load data. Please try again later."

/-- Lines 34-37 of App.js, the derivation of the last-updated value from the
parsed history body:
`if (historyData.length > 0) { const latest = historyData[historyData.length - 1].timestamp; setLastUpdated(new Date(latest)); }`.
It yields the extra setter events this statement performs and the fault it
raises when one of its property accesses throws (the comparison with 0 uses
the ToNumber coercion of the length value, and is false on NaN). -/
def lastUpdatedStep (historyData : JsValue) : List Event × Option JsError :=
  match getProp historyData "length" with
  | .error e => ([], some e)
  | .ok len =>
      match toNumber? len with
      | none => ([], none)
      | some q =>
          if 0 < q then
            match getIndex historyData (subQ q 1) with
            | .error e => ([], some e)
            | .ok lastEl =>
                match getProp lastEl "timestamp" with
                | .error e => ([], some e)
                | .ok latest => ([Event.setLastUpdated (newDate latest)], none)
          else ([], none)

/-- The try block of `fetchData` (App.js lines 15-37), as a function from the
settled outcomes of the three fetches (best_any, best_grand, history) to the
setter events performed before the block finished or threw, together with the
thrown fault if one was raised. The awaited `Promise.all` on lines 16-20
rejects when any fetch rejected (the logged fault is the first rejection in
request order; timing behaviour is modelled by `promiseAll` below); the throw
on lines 22-23 fires when any response is non-ok; the second `Promise.all` on
lines 25-29 rejects when any body fails to parse; lines 31-32 then set the
bestAny and bestGrand slots and lines 34-37 (`lastUpdatedStep`) derive the
last-updated value. -/
def tryEvents (anyRes grandRes histRes : FetchOutcome) : List Event × Option JsError :=
  match anyRes, grandRes, histRes with
  | .ok anyR, .ok grandR, .ok histR =>
      if !anyR.ok || !grandR.ok || !histR.ok then
        ([], some (JsError.jsError "Backend request failed"))
      else
        match anyR.body, grandR.body, histR.body with
        | .ok anyData, .ok grandData, .ok historyData =>
            ([Event.setBestAny anyData, Event.setBestGrand grandData]
               ++ (lastUpdatedStep historyData).1,
             (lastUpdatedStep historyData).2)
        | .error e, _, _ => ([], some e)
        | _, .error e, _ => ([], some e)
        | _, _, .error e => ([], some e)
  | .error e, _, _ => ([], some e)
  | _, .error e, _ => ([], some e)
  | _, _, .error e => ([], some e)

/-- The whole of `fetchData` (App.js lines 14-43) for one activation whose
fetches all settle: the events of the try block, then — when the try block
threw — the `console.error` log and the generic error message set by the
catch block (lines 38-41), and finally `setLoading(false)` from the finally
block (line 42), which runs on both branches. -/
def fetchData (anyRes grandRes histRes : FetchOutcome) : List Event :=
  let t := tryEvents anyRes grandRes histRes
  t.1 ++
    (match t.2 with
     | some e => [Event.logError e, Event.setError userErrorMessage]
     | none => []) ++
    [Event.setLoading false]

/-- The component state when the activation has finished. -/
def finalState (anyRes grandRes histRes : FetchOutcome) : AppState :=
  runEvents initialState (fetchData anyRes grandRes histRes)

/-- The three view variants the component can return (App.js lines 49-61 and
the main return): the loading screen, the error screen with its message, and
the data view with the three data slots. -/
inductive View : Type
  | loading : View
  | error : String → View
  | ready : JsValue → JsValue → Option JsDate → View

/-- The render function of the component (App.js lines 49 onward): the
loading screen while `loading` is set, otherwise the error screen when an
error message is set, otherwise the data view over the three slots. -/
def render (s : AppState) : View :=
  if s.loading then View.loading
  else
    match s.error with
    | some m => View.error m
    | none => View.ready s.bestAny s.bestGrand s.lastUpdated

/-- true on the loading variant. -/
def View.isLoading : View → Bool
  | .loading => true
  | _ => false

/-- true on the error variant. -/
def View.isError : View → Bool
  | .error _ => true
  | _ => false

/-- true on the ready variant. -/
def View.isReady : View → Bool
  | .ready _ _ _ => true
  | _ => false

/-- true when exactly one of the three variant predicates holds of a view. -/
def exactlyOneVariant (v : View) : Bool :=
  (v.isLoading && !v.isError && !v.isReady) ||
  (!v.isLoading && v.isError && !v.isReady) ||
  (!v.isLoading && !v.isError && v.isReady)

/-- true on a `setLoading` event. -/
def isSetLoading : Event → Bool
  | .setLoading _ => true
  | _ => false

/-- true on an event that writes a data slot (bestAny, bestGrand or
lastUpdated). -/
def isSlotWrite : Event → Bool
  | .setBestAny _ => true
  | .setBestGrand _ => true
  | .setLastUpdated _ => true
  | _ => false

/-- true on a `setError` event. -/
def isSetError : Event → Bool
  | .setError _ => true
  | _ => false

/-- Left-pads a digit string with zeros up to width `f`. -/
def padZeros (f : Nat) (s : String) : String :=
  String.mk (List.replicate (f - s.length) '0') ++ s

/-- ECMAScript `Number.prototype.toFixed(f)` for a finite value, over the
rational number model: the integer n for which n / 10^f is as close to the
magnitude |q| as possible is chosen (the larger n on a tie, which is
n = the floor of |q| * 10^f + 1/2, computed below by integer floor division
on the numerator and denominator), and the result is rendered as a sign, the
integer part of n / 10^f, and exactly f fractional digits. The sign test
q < 0 is computed as q.num < 0, which is the same condition. -/
def toFixed (f : Nat) (q : ℚ) : String :=
  let n : Nat := (2 * q.num.natAbs * 10 ^ f + q.den) / (2 * q.den)
  (if q.num < 0 then "-" else "") ++
    toString (n / 10 ^ f) ++
    (if f == 0 then "" else "." ++ padZeros f (toString (n % 10 ^ f)))

/-- The Remaining % table cell of App.js line 94 (and src/unnamed/part_001
line 64): the expression `(g.remaining_ratio * 100).toFixed(2)` followed by a
percent sign. -/
def remainingRatioCell (ratio : ℚ) : String :=
  toFixed 2 (mulQ ratio 100) ++ "%"

/-- A promise tagged with the time at which it settles and its settled
outcome; used to model the timing behaviour of `Promise.all`. -/
structure TimedPromise (α : Type) : Type where
  time : Nat
  result : Except JsError α

/-- The latest settle time among a batch of promises: only once this instant
has passed has every request run to completion. -/
def maxTime {α : Type} : List (TimedPromise α) → Nat
  | [] => 0
  | p :: ps => max p.time (maxTime ps)

/-- The fulfilled values of a batch, in request order. When every promise of
the batch fulfilled this is the list of all their values. -/
def okValues {α : Type} (ps : List (TimedPromise α)) : List α :=
  ps.filterMap (fun p => p.result.toOption)

/-- The ECMAScript `Promise.all` combinator over timed promises: when every
promise fulfills, the batch fulfills with the list of values once the last
promise has settled; when some promise rejects, the batch rejects with the
earliest rejection, at that rejection's settle time — it does not wait for
the promises that settle later (fail-fast rejection), although those keep
running to completion on their own. -/
def promiseAll {α : Type} : List (TimedPromise α) → TimedPromise (List α)
  | [] => TimedPromise.mk 0 (Except.ok [])
  | p :: ps =>
      let rest := promiseAll ps
      match p.result, rest.result with
      | .ok v, .ok vs => TimedPromise.mk (max p.time rest.time) (Except.ok (v :: vs))
      | .ok _, .error e => TimedPromise.mk rest.time (Except.error e)
      | .error e, .ok _ => TimedPromise.mk p.time (Except.error e)
      | .error e, .error f =>
          if p.time ≤ rest.time then TimedPromise.mk p.time (Except.error e)
          else TimedPromise.mk rest.time (Except.error f)

/-- The awaited batch of App.js lines 16-20: `Promise.all` over the three
GET requests (best_any, best_grand, history), each tagged with its settle
time. -/
def loaderBatch (ta tg th : Nat) (a g h : FetchOutcome) : TimedPromise (List Response) :=
  promiseAll [TimedPromise.mk ta a, TimedPromise.mk tg g, TimedPromise.mk th h]

/-- true when the settled outcome is a rejection. -/
def isRejected {α : Type} (r : Except JsError α) : Bool :=
  match r with
  | .error _ => true
  | .ok _ => false

/-- A fetch that fulfilled with a success status and a body that parses to
the JSON value b; used to describe fully successful activations. -/
def okJson (b : JsValue) : FetchOutcome :=
  Except.ok (Response.mk true (Except.ok b))

/-- A sample successful fetch outcome, used to instantiate theorems at
concrete inputs. -/
def sampleOk : FetchOutcome :=
  Except.ok (Response.mk true (Except.ok (JsValue.arr [])))

/-- A sample network fault (the TypeError a browser rejects a failed fetch
with), used to instantiate theorems at concrete inputs. -/
def sampleNetworkFault : FetchOutcome :=
  Except.error (JsError.typeError "Failed to fetch")

/-- true when the parsed history body is an array whose final element, if
the array is non-empty, is a JSON object: the arrays of timestamped records
the history endpoint returns have this shape, and on it the derivation of
the last-updated value cannot throw. -/
def histArrayOk (xs : List JsValue) : Bool :=
  match xs.getLast? with
  | none => true
  | some (JsValue.obj _) => true
  | some _ => false

/-- The last-updated value lines 34-37 of App.js derive from a history array:
none when the array is empty, otherwise the Date of the timestamp field of
the final element (stated for a final element that is an object). -/
def derivedLastUpdated (xs : List JsValue) : Option JsDate :=
  match xs.getLast? with
  | none => none
  | some (JsValue.obj fs) => some (newDate (lookupField fs "timestamp"))
  | some _ => none

/-- The component state of the recommendation variant
(src/unnamed/part_000, lines 5-8): the useState hooks games, best, loading,
error; `best` starts as null. -/
structure RecState : Type where
  games : JsValue
  best : JsValue
  loading : Bool
  error : Option String

/-- The initial state of a fresh activation of the recommendation variant. -/
def initialRecState : RecState :=
  RecState.mk (JsValue.arr []) JsValue.null true none

/-- One state-setter call (or console.error log) of the recommendation
variant. -/
inductive RecEvent : Type
  | setGames : JsValue → RecEvent
  | setBest : JsValue → RecEvent
  | setError : String → RecEvent
  | setLoading : Bool → RecEvent
  | logError : JsError → RecEvent

/-- The effect of one setter call on the recommendation-variant state. -/
def applyRecEvent (s : RecState) (e : RecEvent) : RecState :=
  match e with
  | .setGames v => RecState.mk v s.best s.loading s.error
  | .setBest v => RecState.mk s.games v s.loading s.error
  | .setError m => RecState.mk s.games s.best s.loading (some m)
  | .setLoading b => RecState.mk s.games s.best b s.error
  | .logError _ => s

/-- The try block of the recommendation variant's `fetchData`
(src/unnamed/part_000, lines 15-29): `Promise.all` over the best_any and
recommendation fetches, the non-ok check, then the two bodies awaited in
sequence and stored. -/
def tryEventsRec (gamesRes bestRes : FetchOutcome) : List RecEvent × Option JsError :=
  match gamesRes, bestRes with
  | .ok gamesR, .ok bestR =>
      if !gamesR.ok || !bestR.ok then
        ([], some (JsError.jsError "Backend request failed"))
      else
        match gamesR.body with
        | .error e => ([], some e)
        | .ok gamesData =>
            match bestR.body with
            | .error e => ([], some e)
            | .ok bestData => ([RecEvent.setGames gamesData, RecEvent.setBest bestData], none)
  | .error e, _ => ([], some e)
  | _, .error e => ([], some e)

/-- The whole of the recommendation variant's `fetchData`
(src/unnamed/part_000, lines 14-35): try events, catch (log plus generic
message), then `setLoading(false)` from the finally block. -/
def fetchDataRec (gamesRes bestRes : FetchOutcome) : List RecEvent :=
  let t := tryEventsRec gamesRes bestRes
  t.1 ++
    (match t.2 with
     | some e => [RecEvent.logError e, RecEvent.setError userErrorMessage]
     | none => []) ++
    [RecEvent.setLoading false]

/-- The recommendation-variant state when the activation has finished. -/
def finalRecState (gamesRes bestRes : FetchOutcome) : RecState :=
  (fetchDataRec gamesRes bestRes).foldl applyRecEvent initialRecState

/-- JavaScript truthiness over the modelled values, as used by the
`best && (...)` guard on line 53 of src/unnamed/part_000. -/
def truthy (v : JsValue) : Bool :=
  match v with
  | .undef => false
  | .null => false
  | .bool b => b
  | .num q => !(q == 0)
  | .str s => !(s == "")
  | .arr _ => true
  | .obj _ => true

/-- The three view variants of the recommendation component
(src/unnamed/part_000, lines 41-87): loading, error, or the data view whose
Best Ticket to Play card is present only when `best` is truthy, next to the
games value the All Games table maps over. -/
inductive RecView : Type
  | loading : RecView
  | error : String → RecView
  | ready : Option JsValue → JsValue → RecView

/-- The render function of the recommendation component: loading screen
while loading, error screen on an error message, otherwise the data view;
the card slot is `some best` exactly when `best` is truthy (the
`best && (...)` guard), and omitted (none) otherwise. -/
def renderRec (s : RecState) : RecView :=
  if s.loading then RecView.loading
  else
    match s.error with
    | some m => RecView.error m
    | none => RecView.ready (if truthy s.best then some s.best else none) s.games

/-- true on events that are not a setError call carrying a message other
than the one generic user-facing message. -/
def setErrorIsGeneric (e : Event) : Bool :=
  match e with
  | Event.setError m => m == userErrorMessage
  | _ => true

/-- Faithfulness of the computable multiplication: `mulQ` is multiplication
on ℚ. -/
theorem mulQ_eq (a b : ℚ) : mulQ a b = a * b := by
  rw [mulQ, Rat.mul_def, Rat.normalize_eq_mkRat]

/-- Faithfulness of the computable subtraction: `subQ` is subtraction
on ℚ. -/
theorem subQ_eq (a b : ℚ) : subQ a b = a - b :=
  (Rat.sub_def' a b).symm

/-- Subtracting one from a cast natural number with `subQ`. -/
theorem subQ_natCast_one (n : ℕ) : subQ ((n : ℚ)) 1 = (((n : ℤ) - 1 : ℤ) : ℚ) := by
  rw [subQ_eq]
  push_cast
  ring

/-- The length property of an array value. -/
theorem getProp_arr_length (xs : List JsValue) :
    getProp (JsValue.arr xs) "length" = Except.ok (JsValue.num (xs.length : ℚ)) := rfl

/-- Property access on an object value is field lookup. -/
theorem getProp_obj (fs : List (String × JsValue)) (k : String) :
    getProp (JsValue.obj fs) k = Except.ok (lookupField fs k) := rfl

/-- Indexing a non-empty array at length minus one yields its final
element. -/
theorem getIndex_arr_last (xs : List JsValue) (h : xs ≠ []) :
    getIndex (JsValue.arr xs) (subQ ((xs.length : ℚ)) 1) = Except.ok (xs.getLast h) := by
  have hn : 0 < xs.length := List.length_pos.mpr h
  rw [subQ_natCast_one]
  simp only [getIndex, Rat.den_intCast, Rat.num_intCast]
  rw [if_pos]
  · congr 1
    have ht : (((xs.length : ℤ) - 1)).toNat = xs.length - 1 := by omega
    rw [ht, List.getD_eq_getElem?_getD, List.getElem?_eq_getElem (by omega), List.getLast_eq_getElem]
    simp
  · have h1 : ((1:ℕ) == 1) = true := by decide
    simp only [h1, Bool.true_and, Bool.and_eq_true, decide_eq_true_eq]
    omega

/-- On an empty history array the guarded statement performs no event and
raises no fault. -/
theorem lastUpdatedStep_empty : lastUpdatedStep (JsValue.arr []) = ([], none) := rfl

/-- On a non-empty history array whose final element is an object, the
guarded statement sets last-updated to the Date of the timestamp field of
the final element and raises no fault. -/
theorem lastUpdatedStep_obj_last (xs : List JsValue) (h : xs ≠ []) (fs : List (String × JsValue))
    (hfs : xs.getLast h = JsValue.obj fs) :
    lastUpdatedStep (JsValue.arr xs)
      = ([Event.setLastUpdated (newDate (lookupField fs "timestamp"))], none) := by
  have h3 : (0 : ℚ) < (xs.length : ℚ) := by exact_mod_cast List.length_pos.mpr h
  simp only [lastUpdatedStep, getProp_arr_length, toNumber?, if_pos h3,
    getIndex_arr_last xs h, hfs, getProp_obj]

/-- C5: in a fully successful activation whose history body parses to the
two-element sequence of records with timestamps t1 and t2, the derived
last-updated slot holds the Date of t2, the timestamp of the final element;
with an empty history sequence no last-updated value is derived and the slot
stays null. In both cases the activation ends Ready. -/
theorem c5_last_updated_from_final_element (a b t1 t2 : JsValue) :
    (finalState (okJson a) (okJson b)
        (okJson (JsValue.arr [JsValue.obj [("timestamp", t1)], JsValue.obj [("timestamp", t2)]]))).lastUpdated
      = some (newDate t2)
    ∧ render (finalState (okJson a) (okJson b)
        (okJson (JsValue.arr [JsValue.obj [("timestamp", t1)], JsValue.obj [("timestamp", t2)]])))
      = View.ready a b (some (newDate t2))
    ∧ (finalState (okJson a) (okJson b) (okJson (JsValue.arr []))).lastUpdated = none
    ∧ render (finalState (okJson a) (okJson b) (okJson (JsValue.arr [])))
      = View.ready a b none := by
  have hx : ([JsValue.obj [("timestamp", t1)], JsValue.obj [("timestamp", t2)]] : List JsValue) ≠ [] := by
    simp
  have hlast : ([JsValue.obj [("timestamp", t1)], JsValue.obj [("timestamp", t2)]] : List JsValue).getLast hx
      = JsValue.obj [("timestamp", t2)] := rfl
  have hstep := lastUpdatedStep_obj_last _ hx _ hlast
  have hcell : lookupField [("timestamp", t2)] "timestamp" = t2 := rfl
  rw [hcell] at hstep
  refine ⟨?_, ?_, rfl, rfl⟩ <;>
    simp [finalState, fetchData, tryEvents, okJson, hstep, runEvents, applyEvent,
      initialState, render]

/-- C3 amended: for every activation in which every configured endpoint
returns a success status with a valid JSON body and the history body parses
to an array whose final element (when the array is non-empty) is an object,
the final state is Ready with one slot per endpoint: bestAny and bestGrand
hold the parsed bodies of their endpoints, and the history slot holds the
derived last-updated value — the Date of the final element timestamp field
when the array is non-empty, and null when it is empty — rather than the raw
parsed history body. -/
theorem c3_amended_full_success_ready (a b : JsValue) (xs : List JsValue)
    (hx : histArrayOk xs = true) :
    render (finalState (okJson a) (okJson b) (okJson (JsValue.arr xs)))
      = View.ready a b (derivedLastUpdated xs) := by
  by_cases hnil : xs = []
  · subst hnil
    rfl
  · have hlast := List.getLast?_eq_getLast xs hnil
    obtain ⟨fs, hfs⟩ : ∃ fs, xs.getLast hnil = JsValue.obj fs := by
      unfold histArrayOk at hx
      rw [hlast] at hx
      cases hgl : xs.getLast hnil <;> rw [hgl] at hx <;> simp at hx
      exact ⟨_, rfl⟩
    have hstep := lastUpdatedStep_obj_last xs hnil fs hfs
    have hder : derivedLastUpdated xs = some (newDate (lookupField fs "timestamp")) := by
      unfold derivedLastUpdated
      rw [hlast, hfs]
    rw [hder]
    simp [finalState, fetchData, tryEvents, okJson, hstep, runEvents, applyEvent,
      initialState, render]

/-- Witness for the amended C3 at a concrete input: a one-record history. -/
theorem c3_amended_witness :
    histArrayOk [JsValue.obj [("timestamp", JsValue.num 5)]] = true
    ∧ render (finalState (okJson (JsValue.arr [])) (okJson (JsValue.arr []))
        (okJson (JsValue.arr [JsValue.obj [("timestamp", JsValue.num 5)]])))
      = View.ready (JsValue.arr []) (JsValue.arr [])
          (derivedLastUpdated [JsValue.obj [("timestamp", JsValue.num 5)]]) :=
  ⟨rfl, c3_amended_full_success_ready (JsValue.arr []) (JsValue.arr [])
    [JsValue.obj [("timestamp", JsValue.num 5)]] rfl⟩

/-- C8: for a TicketSummary whose remainingRatio is 0.1234 (the rational
1234/10000), the Remaining % cell renders the ratio times 100, fixed to two
decimal places, followed by a percent sign: the string 12.34%. -/
theorem c8_percent_formatting :
    remainingRatioCell (mkRat 1234 10000) = "12.34%" ∧ (mkRat 1234 10000 : ℚ) = 0.1234 := by
  constructor
  · decide
  · norm_num [Rat.mkRat_eq_divInt, Rat.divInt_eq_div]

/-- C10: in the recommendation variant, a fully successful activation whose
recommendation body parses to null ends in the Ready state, with the Best
Ticket to Play card omitted (the null slot is guarded by the truthiness
check and silently skipped) rather than in Error, and the games table still
renders over the parsed games array. -/
theorem c10_null_recommendation_ready (xs : List JsValue) :
    renderRec (finalRecState (okJson (JsValue.arr xs)) (okJson JsValue.null))
        = RecView.ready none (JsValue.arr xs)
      ∧ (finalRecState (okJson (JsValue.arr xs)) (okJson JsValue.null)).error = none
      ∧ fetchDataRec (okJson (JsValue.arr xs)) (okJson JsValue.null)
        = [RecEvent.setGames (JsValue.arr xs), RecEvent.setBest JsValue.null,
           RecEvent.setLoading false] :=
  ⟨rfl, rfl, rfl⟩

/-- C9: on the activation whose three endpoints all return ok with bodies
parsing to the array [1], the array [2], and null respectively, the bestAny
and bestGrand slots are written before the length access on the null history
body throws; the final state is nonetheless Error, so the Error outcome is
not atomic with respect to slot writes, and the partial data is withheld
only because the render checks the error before rendering data. -/
theorem c9_partial_writes_before_error :
    fetchData (okJson (JsValue.arr [JsValue.num 1])) (okJson (JsValue.arr [JsValue.num 2]))
        (okJson JsValue.null)
      = [Event.setBestAny (JsValue.arr [JsValue.num 1]),
         Event.setBestGrand (JsValue.arr [JsValue.num 2]),
         Event.logError (JsError.typeError "Cannot read properties of null (reading length)"),
         Event.setError userErrorMessage, Event.setLoading false]
    ∧ (finalState (okJson (JsValue.arr [JsValue.num 1])) (okJson (JsValue.arr [JsValue.num 2]))
        (okJson JsValue.null)).bestAny = JsValue.arr [JsValue.num 1]
    ∧ (finalState (okJson (JsValue.arr [JsValue.num 1])) (okJson (JsValue.arr [JsValue.num 2]))
        (okJson JsValue.null)).bestGrand = JsValue.arr [JsValue.num 2]
    ∧ render (finalState (okJson (JsValue.arr [JsValue.num 1])) (okJson (JsValue.arr [JsValue.num 2]))
        (okJson JsValue.null)) = View.error userErrorMessage :=
  ⟨rfl, rfl, rfl, rfl⟩

/-- C3 fails as stated: on the activation whose three endpoints all return a
success status with valid JSON bodies (the empty array, the empty array, and
null — the valid JSON text null), the final state is Error, not Ready. -/
theorem c3_counterexample :
    render (finalState (okJson (JsValue.arr [])) (okJson (JsValue.arr [])) (okJson JsValue.null))
        = View.error userErrorMessage
      ∧ (render (finalState (okJson (JsValue.arr [])) (okJson (JsValue.arr []))
          (okJson JsValue.null))).isReady = false :=
  ⟨rfl, rfl⟩

/-- C1 fails as stated: in a batch where the second request rejects at time 1
while the first settles only at time 5, the awaited Promise.all settles at
time 1 — the batch is evaluated, and its error outcome decided, before every
request has settled. -/
theorem c1_counterexample :
    (loaderBatch 5 1 2 sampleOk sampleNetworkFault sampleOk).time = 1
      ∧ maxTime [TimedPromise.mk 5 sampleOk, TimedPromise.mk 1 sampleNetworkFault,
          TimedPromise.mk 2 sampleOk] = 5
      ∧ isRejected (loaderBatch 5 1 2 sampleOk sampleNetworkFault sampleOk).result = true
      ∧ (loaderBatch 5 1 2 sampleOk sampleNetworkFault sampleOk).time
          ≠ maxTime [TimedPromise.mk 5 sampleOk, TimedPromise.mk 1 sampleNetworkFault,
              TimedPromise.mk 2 sampleOk] := by
  refine ⟨rfl, rfl, rfl, ?_⟩
  decide

/-- Every event of the last-updated derivation writes a data slot. -/
theorem lastUpdatedStep_all_slotWrites (v : JsValue) :
    (lastUpdatedStep v).1.all isSlotWrite = true := by
  unfold lastUpdatedStep
  split
  · rfl
  · split
    · rfl
    · split
      · split
        · rfl
        · split
          · rfl
          · rfl
      · rfl

/-- Every event performed inside the try block writes a data slot: the try
block touches neither the loading flag nor the error message. -/
theorem tryEvents_all_slotWrites (a g h : FetchOutcome) :
    (tryEvents a g h).1.all isSlotWrite = true := by
  rcases a with e | ra <;> rcases g with eg | rg <;> rcases h with eh | rh <;>
    (simp only [tryEvents, List.all_nil]; try rfl)
  split
  · rfl
  · split
    · simp [isSlotWrite, lastUpdatedStep_all_slotWrites]
    · rfl
    · rfl
    · rfl

/-- Unfolding one event of a run. -/
theorem runEvents_cons (s : AppState) (e : Event) (es : List Event) :
    runEvents s (e :: es) = runEvents (applyEvent s e) es := rfl

/-- Runs compose over concatenation of traces. -/
theorem runEvents_append (s : AppState) (l1 l2 : List Event) :
    runEvents s (l1 ++ l2) = runEvents (runEvents s l1) l2 :=
  List.foldl_append applyEvent s l1 l2

/-- A slot write leaves the loading flag and the error message unchanged. -/
theorem slotWrite_preserves (s : AppState) (e : Event) (h : isSlotWrite e = true) :
    (applyEvent s e).loading = s.loading ∧ (applyEvent s e).error = s.error := by
  cases e <;> simp_all [isSlotWrite, applyEvent]

/-- A trace of slot writes leaves the loading flag and the error message
unchanged. -/
theorem runEvents_slotWrites_preserve (evs : List Event) (s : AppState)
    (h : evs.all isSlotWrite = true) :
    (runEvents s evs).loading = s.loading ∧ (runEvents s evs).error = s.error := by
  induction evs generalizing s with
  | nil => exact ⟨rfl, rfl⟩
  | cons e es ih =>
      rw [List.all_cons, Bool.and_eq_true] at h
      rw [runEvents_cons]
      have hp := slotWrite_preserves s e h.1
      have := ih (applyEvent s e) h.2
      exact ⟨this.1.trans hp.1, this.2.trans hp.2⟩

/-- A slot write is not a setLoading call. -/
theorem slotWrite_not_setLoading (e : Event) (h : isSlotWrite e = true) :
    isSetLoading e = false := by
  cases e <;> simp_all [isSlotWrite, isSetLoading]

/-- A slot write carries no error message at all. -/
theorem slotWrite_setErrorIsGeneric (e : Event) (h : isSlotWrite e = true) :
    setErrorIsGeneric e = true := by
  cases e <;> simp_all [isSlotWrite, setErrorIsGeneric]

/-- C4: for every activation whose fetches all settle, the trace performs
exactly one setLoading call — setLoading(false), from the finally block —
and it is the final event of the trace, whichever branch was taken: the
lifecycle leaves Loading exactly once and never re-enters it within the
activation. -/
theorem c4_leaves_loading_exactly_once (a g h : FetchOutcome) :
    (fetchData a g h).filter isSetLoading = [Event.setLoading false]
    ∧ (fetchData a g h).getLast? = some (Event.setLoading false) := by
  constructor
  · show ((tryEvents a g h).1 ++ _ ++ [Event.setLoading false]).filter isSetLoading = _
    rw [List.filter_append, List.filter_append]
    have h1 : (tryEvents a g h).1.filter isSetLoading = [] := by
      rw [List.filter_eq_nil_iff]
      intro e he
      have := List.all_eq_true.mp (tryEvents_all_slotWrites a g h) e he
      simp [slotWrite_not_setLoading e this]
    have h2 : (match (tryEvents a g h).2 with
        | some e => [Event.logError e, Event.setError userErrorMessage]
        | none => ([] : List Event)).filter isSetLoading = [] := by
      split <;> rfl
    rw [h1, h2]
    rfl
  · show ((tryEvents a g h).1 ++ _ ++ [Event.setLoading false]).getLast? = _
    exact List.getLast?_concat _

/-- Scanning over a trace ending in one extra event. -/
theorem scanl_concat {α β : Type} (f : β → α → β) (b : β) (l : List α) (x : α) :
    List.scanl f b (l ++ [x]) = List.scanl f b l ++ [List.foldl f b (l ++ [x])] := by
  induction l generalizing b with
  | nil => rfl
  | cons a l ih =>
      rw [List.cons_append, List.scanl_cons, List.scanl_cons, ih, List.foldl_cons]
      rfl

/-- While the loading flag is set, the component renders the loading
screen. -/
theorem render_of_loading (s : AppState) (h : s.loading = true) : render s = View.loading := by
  unfold render
  rw [if_pos h]

/-- Once the loading flag is cleared, the component no longer renders the
loading screen. -/
theorem render_isLoading_false (s : AppState) (h : s.loading = false) :
    (render s).isLoading = false := by
  unfold render
  rw [if_neg (by simp [h])]
  cases s.error <;> rfl

/-- Every state reached by a trace free of setLoading calls, starting from a
loading state, still renders the loading screen. -/
theorem scanl_all_loading (evs : List Event) (s : AppState) (hs : s.loading = true)
    (h : evs.all (fun e => !isSetLoading e) = true) :
    (List.scanl applyEvent s evs).all (fun t => (render t).isLoading) = true := by
  induction evs generalizing s with
  | nil =>
      simp [List.scanl, render_of_loading s hs, View.isLoading]
  | cons e es ih =>
      rw [List.all_cons, Bool.and_eq_true] at h
      rw [List.scanl_cons]
      simp only [List.all_append, List.all_cons, List.all_nil, Bool.and_true, Bool.and_eq_true]
      constructor
      · simp [render_of_loading s hs, View.isLoading]
      · refine ih (applyEvent s e) ?_ h.2
        cases e <;> simp_all [isSetLoading, applyEvent]

/-- The render function always yields exactly one of the three view
variants. -/
theorem exactlyOne_render (s : AppState) : exactlyOneVariant (render s) = true := by
  unfold render
  split
  · rfl
  · split <;> rfl

/-- C7: at every moment of an activation the view corresponds to exactly one
LoadState variant among Loading, Error and Ready, and the transitions are
monotonic: every intermediate state of the trace still renders Loading, the
final state renders a variant other than Loading (Error or Ready), and the
trace ends there — once Loading has been left the resulting variant is
terminal for the activation. -/
theorem c7_loadstate_exactly_one_and_monotonic :
    (∀ s : AppState, exactlyOneVariant (render s) = true)
    ∧ ∀ a g h : FetchOutcome,
        ((List.scanl applyEvent initialState (fetchData a g h)).dropLast.all
          (fun t => (render t).isLoading) = true)
        ∧ (render (finalState a g h)).isLoading = false
        ∧ (List.scanl applyEvent initialState (fetchData a g h)).getLast?
            = some (finalState a g h) := by
  refine ⟨exactlyOne_render, fun a g h => ?_⟩
  have hfront : ((tryEvents a g h).1 ++ (match (tryEvents a g h).2 with
      | some e => [Event.logError e, Event.setError userErrorMessage]
      | none => [])).all (fun e => !isSetLoading e) = true := by
    rw [List.all_append, Bool.and_eq_true]
    constructor
    · rw [List.all_eq_true]
      intro e he
      simp [slotWrite_not_setLoading e (List.all_eq_true.mp (tryEvents_all_slotWrites a g h) e he)]
    · split <;> rfl
  refine ⟨?_, ?_, ?_⟩
  · unfold fetchData
    rw [scanl_concat, List.dropLast_concat]
    exact scanl_all_loading _ initialState rfl hfront
  · refine render_isLoading_false _ ?_
    show (runEvents initialState (_ ++ [Event.setLoading false])).loading = false
    rw [runEvents_append]
    rfl
  · unfold fetchData finalState
    rw [scanl_concat, List.getLast?_concat]
    rfl

/-- C2: for every activation in which at least one fetch rejects or returns
a non-success status, the try block performs no slot write at all and throws,
so the final state is Error with the generic user-facing message: the error
screen is rendered and every data slot still holds its initial value — no
partial slot data from the other endpoints is exposed to the user. -/
theorem c2_failure_is_error_without_partial_data (a g h : FetchOutcome)
    (hf : (fetchFailed a || fetchFailed g || fetchFailed h) = true) :
    (∃ e, tryEvents a g h = ([], some e))
    ∧ render (finalState a g h) = View.error userErrorMessage
    ∧ (finalState a g h).bestAny = initialState.bestAny
    ∧ (finalState a g h).bestGrand = initialState.bestGrand
    ∧ (finalState a g h).lastUpdated = none
    ∧ (fetchData a g h).all (fun e => !isSlotWrite e) = true := by
  obtain ⟨e, he⟩ : ∃ e, tryEvents a g h = ([], some e) := by
    rcases a with ea | ra <;> rcases g with eg | rg <;> rcases h with eh | rh <;>
      try exact ⟨_, rfl⟩
    refine ⟨JsError.jsError "Backend request failed", ?_⟩
    simp only [fetchFailed] at hf
    simp only [tryEvents]
    rw [if_pos hf]
  have htrace : fetchData a g h
      = [Event.logError e, Event.setError userErrorMessage, Event.setLoading false] := by
    unfold fetchData
    rw [he]
    rfl
  refine ⟨⟨e, he⟩, ?_, ?_, ?_, ?_, ?_⟩ <;>
    simp [finalState, htrace, runEvents, applyEvent, initialState, render, isSlotWrite]

/-- Witness for C2 at a concrete input: a network fault on the first
fetch. -/
theorem c2_witness :
    render (finalState sampleNetworkFault sampleOk sampleOk) = View.error userErrorMessage
    ∧ (finalState sampleNetworkFault sampleOk sampleOk).bestAny = initialState.bestAny :=
  ⟨(c2_failure_is_error_without_partial_data sampleNetworkFault sampleOk sampleOk rfl).2.1,
   (c2_failure_is_error_without_partial_data sampleNetworkFault sampleOk sampleOk rfl).2.2.1⟩

/-- C6: for every activation, every setError call of the trace carries the
one generic user-facing message, so the final error is either absent or that
message; and whenever the try block throws a fault — network error, non-ok
status, malformed JSON, or a throwing property access — the fault is caught,
logged via console.error, and mapped to the generic message, after which the
error screen is rendered: no distinction between fault kinds is surfaced. -/
theorem c6_single_generic_error_message (a g h : FetchOutcome) :
    ((fetchData a g h).all setErrorIsGeneric = true)
    ∧ ((finalState a g h).error = none ∨ (finalState a g h).error = some userErrorMessage)
    ∧ (match (tryEvents a g h).2 with
       | some e =>
           fetchData a g h = (tryEvents a g h).1
               ++ [Event.logError e, Event.setError userErrorMessage, Event.setLoading false]
           ∧ render (finalState a g h) = View.error userErrorMessage
       | none => (finalState a g h).error = none) := by
  have hsw := tryEvents_all_slotWrites a g h
  refine ⟨?_, ?_, ?_⟩
  · show ((tryEvents a g h).1 ++ _ ++ [Event.setLoading false]).all setErrorIsGeneric = true
    rw [List.all_append, List.all_append]
    simp only [Bool.and_eq_true]
    refine ⟨⟨?_, ?_⟩, rfl⟩
    · rw [List.all_eq_true]
      intro e he
      exact slotWrite_setErrorIsGeneric e (List.all_eq_true.mp hsw e he)
    · split <;> simp [setErrorIsGeneric]
  · cases hfault : (tryEvents a g h).2 with
    | none =>
        left
        have hpair : tryEvents a g h = ((tryEvents a g h).1, none) :=
          Prod.ext rfl hfault
        unfold finalState fetchData
        rw [hpair, runEvents_append, runEvents_append]
        show (runEvents initialState (tryEvents a g h).1).error = none
        exact (runEvents_slotWrites_preserve _ initialState hsw).2
    | some e =>
        right
        have hpair : tryEvents a g h = ((tryEvents a g h).1, some e) :=
          Prod.ext rfl hfault
        unfold finalState fetchData
        rw [hpair, runEvents_append, runEvents_append]
        rfl
  · cases hfault : (tryEvents a g h).2 with
    | none =>
        have hpair : tryEvents a g h = ((tryEvents a g h).1, none) :=
          Prod.ext rfl hfault
        unfold finalState fetchData
        rw [hpair, runEvents_append, runEvents_append]
        show (runEvents initialState (tryEvents a g h).1).error = none
        exact (runEvents_slotWrites_preserve _ initialState hsw).2
    | some e =>
        have hpair : tryEvents a g h = ((tryEvents a g h).1, some e) :=
          Prod.ext rfl hfault
        constructor
        · conv_lhs => rw [fetchData, hpair]
          simp
        · unfold finalState fetchData
          rw [hpair, runEvents_append, runEvents_append]
          rfl

/-- When every promise of a batch fulfills, Promise.all fulfills with all
the values in request order, and settles only at the latest settle time. -/
theorem promiseAll_allOk {α : Type} (ps : List (TimedPromise α))
    (h : ∀ p ∈ ps, isRejected p.result = false) :
    promiseAll ps = TimedPromise.mk (maxTime ps) (Except.ok (okValues ps)) := by
  induction ps with
  | nil => rfl
  | cons p ps ih =>
      have hrest := ih (fun q hq => h q (List.mem_cons_of_mem p hq))
      have hp : isRejected p.result = false := h p (List.mem_cons_self p ps)
      rcases hpv : p.result with e | v
      · rw [hpv] at hp
        simp [isRejected] at hp
      · simp only [promiseAll, hrest, hpv]
        simp only [maxTime, okValues, List.filterMap_cons, hpv, Except.toOption]

/-- When some promise of a batch rejects, Promise.all rejects, and settles
exactly at the settle time of a rejecting promise — in particular no later
than every rejecting promise, regardless of the promises that settle
later. -/
theorem promiseAll_rejected {α : Type} (ps : List (TimedPromise α))
    (h : ∃ p ∈ ps, isRejected p.result = true) :
    isRejected (promiseAll ps).result = true
    ∧ (∃ p ∈ ps, isRejected p.result = true ∧ (promiseAll ps).time = p.time)
    ∧ ∀ p ∈ ps, isRejected p.result = true → (promiseAll ps).time ≤ p.time := by
  induction ps with
  | nil => simp at h
  | cons p ps ih =>
      by_cases hrest : ∃ q ∈ ps, isRejected q.result = true
      · obtain ⟨hr1, hr2, hr3⟩ := ih hrest
        rcases hrv : (promiseAll ps).result with f | vs
        · rcases hpv : p.result with e | v
          · by_cases hle : p.time ≤ (promiseAll ps).time
            · refine ⟨?_, ⟨p, List.mem_cons_self p ps, ?_, ?_⟩, ?_⟩
              · simp only [promiseAll, hpv, hrv, if_pos hle, isRejected]
              · simp [hpv, isRejected]
              · simp only [promiseAll, hpv, hrv, if_pos hle]
              · intro q hq hqr
                rcases List.mem_cons.mp hq with h1 | h1
                · subst h1
                  simp only [promiseAll, hpv, hrv, if_pos hle]
                  omega
                · have := hr3 q h1 hqr
                  simp only [promiseAll, hpv, hrv, if_pos hle]
                  omega
            · obtain ⟨q, hqmem, hqr, hqt⟩ := hr2
              refine ⟨?_, ⟨q, List.mem_cons_of_mem p hqmem, hqr, ?_⟩, ?_⟩
              · simp only [promiseAll, hpv, hrv, if_neg hle, isRejected]
              · simp only [promiseAll, hpv, hrv, if_neg hle]
                exact hqt
              · intro r hr hrr
                rcases List.mem_cons.mp hr with h1 | h1
                · subst h1
                  simp only [promiseAll, hpv, hrv, if_neg hle]
                  omega
                · have := hr3 r h1 hrr
                  simp only [promiseAll, hpv, hrv, if_neg hle]
                  omega
          · obtain ⟨q, hqmem, hqr, hqt⟩ := hr2
            refine ⟨?_, ⟨q, List.mem_cons_of_mem p hqmem, hqr, ?_⟩, ?_⟩
            · simp only [promiseAll, hpv, hrv, isRejected]
            · simp only [promiseAll, hpv, hrv]
              exact hqt
            · intro r hr hrr
              rcases List.mem_cons.mp hr with h1 | h1
              · subst h1
                rw [hpv] at hrr
                simp [isRejected] at hrr
              · have := hr3 r h1 hrr
                simp only [promiseAll, hpv, hrv]
                omega
        · rw [hrv] at hr1
          simp [isRejected] at hr1
      · have hall : ∀ q ∈ ps, isRejected q.result = false := by
          intro q hq
          by_contra hc
          refine hrest ⟨q, hq, ?_⟩
          revert hc
          cases isRejected q.result <;> simp
        have hrestEq := promiseAll_allOk ps hall
        obtain ⟨p0, hp0mem, hp0⟩ := h
        have hp0p : p0 = p := by
          rcases List.mem_cons.mp hp0mem with h1 | h1
          · exact h1
          · rw [hall p0 h1] at hp0
            exact absurd hp0 (by simp)
        subst hp0p
        rcases hpv : p0.result with e | v
        · refine ⟨?_, ⟨p0, List.mem_cons_self p0 ps, hp0, ?_⟩, ?_⟩
          · simp only [promiseAll, hrestEq, hpv, isRejected]
          · simp only [promiseAll, hrestEq, hpv]
          · intro q hq hqr
            rcases List.mem_cons.mp hq with h1 | h1
            · subst h1
              simp only [promiseAll, hrestEq, hpv]
              omega
            · rw [hall q h1] at hqr
              exact absurd hqr (by simp)
        · rw [hpv] at hp0
          simp [isRejected] at hp0

/-- C1 amended: the loader issues its three GET requests together; when all
of them fulfill, the awaited Promise.all suspends until every one settles
(its settle time is the latest of the three) and only then yields the batch
of responses; but when any request rejects, Promise.all is fail-fast: the
batch settles, and the error outcome is decided, exactly at the earliest
rejection, without waiting for the requests that settle later (which keep
running to completion on their own, their results discarded). -/
theorem c1_amended_batch_settling (ta tg th : Nat) (a g h : FetchOutcome) :
    (isRejected a = false ∧ isRejected g = false ∧ isRejected h = false →
        loaderBatch ta tg th a g h
          = TimedPromise.mk
              (maxTime [TimedPromise.mk ta a, TimedPromise.mk tg g, TimedPromise.mk th h])
              (Except.ok (okValues [TimedPromise.mk ta a, TimedPromise.mk tg g, TimedPromise.mk th h])))
    ∧ ((isRejected a || isRejected g || isRejected h) = true →
        isRejected (loaderBatch ta tg th a g h).result = true
        ∧ (∃ p ∈ [TimedPromise.mk ta a, TimedPromise.mk tg g, TimedPromise.mk th h],
            isRejected p.result = true ∧ (loaderBatch ta tg th a g h).time = p.time)
        ∧ ∀ p ∈ [TimedPromise.mk ta a, TimedPromise.mk tg g, TimedPromise.mk th h],
            isRejected p.result = true → (loaderBatch ta tg th a g h).time ≤ p.time) := by
  constructor
  · intro ⟨h1, h2, h3⟩
    refine promiseAll_allOk _ ?_
    intro p hp
    rcases List.mem_cons.mp hp with rfl | hp
    · exact h1
    rcases List.mem_cons.mp hp with rfl | hp
    · exact h2
    rcases List.mem_cons.mp hp with rfl | hp
    · exact h3
    · simp at hp
  · intro hrej
    refine promiseAll_rejected _ ?_
    rcases Bool.or_eq_true_iff.mp hrej with hr | hr
    · rcases Bool.or_eq_true_iff.mp hr with hr2 | hr2
      · exact ⟨TimedPromise.mk ta a, by simp, hr2⟩
      · exact ⟨TimedPromise.mk tg g, by simp, hr2⟩
    · exact ⟨TimedPromise.mk th h, by simp, hr⟩

/-- Witness for the amended C1 at concrete inputs: one all-fulfilled batch
and one batch with a rejection. -/
theorem c1_amended_witness :
    loaderBatch 1 2 3 sampleOk sampleOk sampleOk
        = TimedPromise.mk
            (maxTime [TimedPromise.mk 1 sampleOk, TimedPromise.mk 2 sampleOk, TimedPromise.mk 3 sampleOk])
            (Except.ok (okValues [TimedPromise.mk 1 sampleOk, TimedPromise.mk 2 sampleOk, TimedPromise.mk 3 sampleOk]))
    ∧ isRejected (loaderBatch 5 1 2 sampleOk sampleNetworkFault sampleOk).result = true :=
  ⟨(c1_amended_batch_settling 1 2 3 sampleOk sampleOk sampleOk).1 ⟨rfl, rfl, rfl⟩,
   ((c1_amended_batch_settling 5 1 2 sampleOk sampleNetworkFault sampleOk).2 rfl).1⟩

end NYScratch
